import Mathlib

/- Shallow embedding of the QuarterTime time tracker (src/main.py).

   Timestamps are modelled as natural numbers counting seconds from
   1970-01-01 00:00:00.  The SQLite layer stores timestamps as strings of
   the fixed format YYYY-MM-DD HH:MM:SS, whose lexicographic order agrees
   with chronological order, so every string comparison in the SQL becomes
   a numeric comparison here.  The calendar helpers below convert between
   (year, month, day) triples and absolute day counts since 1970-01-01,
   mirroring the datetime arithmetic of the source. -/

namespace QuarterTime

/-- Days since 1970-01-01 of the civil date (y, m, d); valid for years
from 1970 on (standard civil-calendar conversion). -/
def daysFromCivil (y m d : Nat) : Nat :=
  let y2 := if m ≤ 2 then y - 1 else y
  let era := y2 / 400
  let yoe := y2 % 400
  let mp := if 2 < m then m - 3 else m + 9
  let doy := (153 * mp + 2) / 5 + d - 1
  let doe := yoe * 365 + yoe / 4 - yoe / 100 + doy
  era * 146097 + doe - 719468

/-- Civil date (year, month, day) of a day count since 1970-01-01. -/
def civilFromDays (z : Nat) : Nat × Nat × Nat :=
  let z2 := z + 719468
  let era := z2 / 146097
  let doe := z2 % 146097
  let yoe := (doe - doe / 1460 + doe / 36524 - doe / 146096) / 365
  let doy := doe - (365 * yoe + yoe / 4 - yoe / 100)
  let mp := (5 * doy + 2) / 153
  let d := doy - (153 * mp + 2) / 5 + 1
  let m := if mp < 10 then mp + 3 else mp - 9
  (yoe + era * 400 + (if m ≤ 2 then 1 else 0), m, d)

/-- Timestamp (seconds since 1970-01-01 00:00:00) of a civil date-time. -/
def mkTs (y m d h mi s : Nat) : Nat :=
  daysFromCivil y m d * 86400 + h * 3600 + mi * 60 + s

/-- The calendar day (absolute day count) a timestamp falls on; this is
the SQL date() of the stored timestamp string. -/
def dateOf (t : Nat) : Nat := t / 86400

/-- One row of the time_records table. -/
structure Interval where
  id : Nat
  activity_type : String
  start_time : Nat
  end_time : Option Nat
deriving DecidableEq, Repr

/-- The persistent store: the time_records table (in rowid order), the
singleton current_status row (current_activity, last_start), and the next
AUTOINCREMENT id. -/
structure DBState where
  records : List Interval
  current_status : Option (String × Nat)
  nextId : Nat
deriving DecidableEq, Repr

/-- The freshly initialised database. -/
def emptyDB : DBState := { records := [], current_status := none, nextId := 1 }

/-- Number of rows whose end_time is NULL (open intervals). -/
def countOpen (rs : List Interval) : Nat :=
  (rs.filter fun r => r.end_time.isNone).length

/-- UPDATE time_records SET end_time = now WHERE end_time IS NULL. -/
def close_open (now : Nat) (rs : List Interval) : List Interval :=
  rs.map fun r =>
    match r.end_time with
    | none => { r with end_time := some now }
    | some _ => r

/-- TimeTrackerDB.log_activity (src/main.py lines 87-114).  Reads the
current_status row; if it exists and its current_activity equals the
requested label, returns False without writing.  Otherwise, when the
stored current_activity is truthy (a non-empty string), every open row is
closed at now; then current_status is replaced by (label, now) and a new
open row (label, now) is appended.  Returns True. -/
def log_activity (activity_type : String) (now : Nat) (σ : DBState) : Bool × DBState :=
  match σ.current_status with
  | some (cur, _) =>
    if cur = activity_type then (false, σ)
    else
      let rs := if cur = "" then σ.records else close_open now σ.records
      (true,
       { records := rs ++ [⟨σ.nextId, activity_type, now, none⟩],
         current_status := some (activity_type, now),
         nextId := σ.nextId + 1 })
  | none =>
    (true,
     { records := σ.records ++ [⟨σ.nextId, activity_type, now, none⟩],
       current_status := some (activity_type, now),
       nextId := σ.nextId + 1 })

/-- Row predicate of the SELECT in manual_insert_activity:
start_time <= s AND (end_time >= s OR end_time IS NULL). -/
def containsPoint (s : Nat) (r : Interval) : Bool :=
  decide (r.start_time ≤ s) &&
    (match r.end_time with
     | none => true
     | some e => decide (s ≤ e))

/-- The SELECT ... ORDER BY start_time DESC LIMIT 1 of
manual_insert_activity: among the rows containing s, the one with the
largest start_time (later rows win ties). -/
def selectOriginal (s : Nat) (rs : List Interval) : Option Interval :=
  (rs.filter (containsPoint s)).foldl
    (fun acc r =>
      match acc with
      | none => some r
      | some b => if b.start_time ≤ r.start_time then some r else some b)
    none

/-- Minimum of a list of naturals (SQL MIN aggregate; NULL on empty). -/
def listMinNat : List Nat → Option Nat
  | [] => none
  | x :: xs =>
    match listMinNat xs with
    | none => some x
    | some m => some (min x m)

/-- TimeTrackerDB.manual_insert_activity (src/main.py lines 231-286).
If a row containing start_str exists (latest start wins), that row is
closed at start_str, a new row (label, start_str, new_end) is inserted
where new_end is the closed original end, or now when the original was
open, and rows other than the new one whose start_time equals the
original end get their start_time set to new_end (which equals that same
original end, so this UPDATE rewrites the value it matched).  Otherwise a
new row is inserted ending at the next later start, or at now if none. -/
def manual_insert_activity (activity_type : String) (start_str now : Nat) (σ : DBState) : DBState :=
  match selectOriginal start_str σ.records with
  | some orig =>
    let rs1 := σ.records.map fun r =>
      if r.id = orig.id then { r with end_time := some start_str } else r
    let new_end := match orig.end_time with | some e => e | none => now
    let newId := σ.nextId
    let rs2 := rs1 ++ [⟨newId, activity_type, start_str, some new_end⟩]
    let rs3 := match orig.end_time with
      | some e =>
        rs2.map fun r =>
          if r.start_time = e ∧ r.id ≠ newId then { r with start_time := new_end } else r
      | none => rs2
    { σ with records := rs3, nextId := newId + 1 }
  | none =>
    let next_start :=
      listMinNat ((σ.records.filter fun r => decide (start_str < r.start_time)).map
        (fun r => r.start_time))
    let end_time := match next_start with | some m => m | none => now
    { σ with
        records := σ.records ++ [⟨σ.nextId, activity_type, start_str, some end_time⟩],
        nextId := σ.nextId + 1 }

/-- TimeTrackerDB.get_date_records (src/main.py lines 161-199) for the
day with absolute day number d, with the SQL datetime(now) sampled as
now.  Selects rows starting on day d, or starting earlier and ending on
or after midnight of d (or still open); clips the reported start up to
midnight of d; reports end_time with NULL replaced by now; the duration
is MAX(0, end - adjusted_start), which is exactly truncated natural
subtraction.  Rows are ordered by (unadjusted) start_time. -/
def get_date_records (d now : Nat) (σ : DBState) : List (String × Nat × Nat × Nat) :=
  let start_of_day := d * 86400
  let rows := σ.records.filter fun r =>
    decide (dateOf r.start_time = d) ||
      (decide (r.start_time < start_of_day) &&
        (match r.end_time with
         | none => true
         | some e => decide (start_of_day ≤ e)))
  let sorted := List.insertionSort (fun a b => a.start_time ≤ b.start_time) rows
  sorted.map fun r =>
    let adj := if r.start_time < start_of_day then start_of_day else r.start_time
    let e := r.end_time.getD now
    (r.activity_type, adj, e, e - adj)

/-- TimeTrackerDB.get_month_records (src/main.py lines 201-220).  The
cutoff end_date is the first day of the next month minus one day, at
00:00:00; rows with start_time <= end_date and (end_time >= month start
or NULL) are returned unclipped, with NULL end_time replaced by now. -/
def get_month_records (year month now : Nat) (σ : DBState) : List (String × Nat × Nat) :=
  let start_date := daysFromCivil year month 1 * 86400
  let next_month := if month < 12 then month + 1 else 1
  let next_year := if month < 12 then year else year + 1
  let end_date := daysFromCivil next_year next_month 1 * 86400 - 86400
  (σ.records.filter fun r =>
    decide (r.start_time ≤ end_date) &&
      (match r.end_time with
       | none => true
       | some e => decide (start_date ≤ e))).map
    fun r => (r.activity_type, r.start_time, r.end_time.getD now)

/-- Outcome of the manual-add dialog validation (ValueError messages of
validate_and_submit in src/main.py lines 511-531). -/
inductive InputError where
  | noActivity
  | invalidInput
deriving DecidableEq, Repr

/-- validate_and_submit of the manual-add dialog (src/main.py lines
511-531), after parsing: an empty activity selection is rejected; a start
time later than now raises the future-timestamp ValueError; otherwise the
database operation manual_insert_activity runs.  The returned state is
the store after the call; on rejection it is the unchanged input store. -/
def validate_and_submit (activity : String) (start_time now : Nat) (σ : DBState) :
    Option InputError × DBState :=
  if activity = "" then (some InputError.noActivity, σ)
  else if now < start_time then (some InputError.invalidInput, σ)
  else (none, manual_insert_activity activity start_time now σ)

/-- Number of days of a calendar month, computed as in
TimeTrackerApp._create_month_chart (src/main.py lines 771-773):
datetime(year + month // 12, month % 12 + 1, 1) - datetime(year, month, 1). -/
def days_in_month (year month : Nat) : Nat :=
  daysFromCivil (year + month / 12) (month % 12 + 1) 1 - daysFromCivil year month 1

/-- Per-day contributions of one record in the per-day aggregation loop
of _create_month_chart (src/main.py lines 783-794): starting from the
start timestamp and stepping by whole days while the current date is not
past the end date, a day whose calendar month equals the selected month
contributes (day of month, day_end - day_start) where day_start is the
larger of start and local midnight, and day_end the smaller of end and
local 23:59:59.  Durations are in seconds (the source divides by 3600 for
hours). -/
def record_day_contribs (month : Nat) (start stop : Nat) : List (Nat × Int) :=
  if dateOf stop < dateOf start then []
  else
    (List.range (dateOf stop - dateOf start + 1)).filterMap fun k =>
      let cd := start + k * 86400
      let day := dateOf cd
      let c := civilFromDays day
      if c.2.1 = month then
        let day_start := max start (day * 86400)
        let day_end := min stop (day * 86400 + 86399)
        some (c.2.2, (day_end : Int) - (day_start : Int))
      else none

/-- Total seconds attributed to the given day of month by all records,
as accumulated into daily_data[day][total] by _create_month_chart. -/
def daily_total (month : Nat) (recs : List (String × Nat × Nat)) (day : Nat) : Int :=
  ((recs.map fun r =>
      (((record_day_contribs month r.2.1 r.2.2).filter fun p => decide (p.1 = day)).map
        fun p => p.2).sum)).sum

/-- Seconds attributed to the given day of month and activity label, as
accumulated into daily_data[day][data][act]. -/
def daily_act_total (month : Nat) (recs : List (String × Nat × Nat)) (act : String)
    (day : Nat) : Int :=
  (((recs.filter fun r => decide (r.1 = act)).map fun r =>
      (((record_day_contribs month r.2.1 r.2.2).filter fun p => decide (p.1 = day)).map
        fun p => p.2).sum)).sum

/-- The valid_days list of _create_month_chart (src/main.py lines
797-799): days of the month whose total is at least 23.9 hours (86040
seconds) and whose date is not in covered_days.  Only these days enter
the monthly average. -/
def valid_days (year month : Nat) (recs : List (String × Nat × Nat))
    (covered : List Nat) : List Nat :=
  (List.range' 1 (days_in_month year month)).filter fun d =>
    decide (86040 ≤ daily_total month recs d) && decide (d ∉ covered)

/-- The avg_data entry of _create_month_chart (src/main.py lines
802-805): the mean over valid_days of the per-day per-activity totals;
zero when there are no valid days (rational division by zero is zero,
matching the source which leaves the initial 0). -/
def avg_data (year month : Nat) (recs : List (String × Nat × Nat)) (covered : List Nat)
    (act : String) : ℚ :=
  (((valid_days year month recs covered).map fun d =>
      ((daily_act_total month recs act d : ℚ))).sum) /
    ((valid_days year month recs covered).length : ℚ)

/-- Run a list of button presses: each element is (label, now sampled at
the start of that call); returns the list of log_activity return values
and the final store. -/
def run2 : List (String × Nat) → DBState → List Bool × DBState
  | [], σ => ([], σ)
  | (l, t) :: rest, σ =>
    let p := log_activity l t σ
    let q := run2 rest p.2
    (p.1 :: q.1, q.2)

/-- The interval rows produced by a run of presses with distinct
consecutive labels: each press is closed at the start of the next, and
the last press stays open; ids count up from i. -/
def chain (i : Nat) : List (String × Nat) → List Interval
  | [] => []
  | [(l, t)] => [⟨i, l, t, none⟩]
  | (l, t) :: (l2, t2) :: rest => ⟨i, l, t, some t2⟩ :: chain (i + 1) ((l2, t2) :: rest)

/-- Adjacency of a row list: each row ends exactly where the next starts. -/
def chained : List Interval → Prop
  | [] => True
  | [_] => True
  | a :: b :: rest => a.end_time = some b.start_time ∧ chained (b :: rest)

/-- Last press of a non-empty press list, with the head passed apart. -/
def lastPair (p : String × Nat) : List (String × Nat) → String × Nat
  | [] => p
  | q :: rest => lastPair q rest

/-- Consecutive presses carry distinct labels. -/
def consecDistinct : List (String × Nat) → Bool
  | [] => true
  | [_] => true
  | (l, _) :: (l2, t2) :: rest => !(l = l2 : Bool) && consecDistinct ((l2, t2) :: rest)

/-- Every press label is a non-empty string (the data model of the spec
declares activity labels non-empty). -/
def labelsNonempty : List (String × Nat) → Bool
  | [] => true
  | p :: rest => !(p.1 = "" : Bool) && labelsNonempty rest

/-- States reachable from the fresh database by button presses with
non-empty labels and by arbitrary manual insertions. -/
inductive Reachable : DBState → Prop where
  | init : Reachable emptyDB
  | step_log (σ : DBState) (L : String) (now : Nat) :
      Reachable σ → L ≠ "" → Reachable (log_activity L now σ).2
  | step_manual (σ : DBState) (L : String) (s now : Nat) :
      Reachable σ → Reachable (manual_insert_activity L s now σ)

/-- Store invariant maintained by the reachable states: the stored
current activity is non-empty; with no current_status row there is no
open row; every open row mirrors current_status; and at most one row is
open. -/
def Inv (σ : DBState) : Prop :=
  (∀ l s, σ.current_status = some (l, s) → l ≠ "") ∧
  (σ.current_status = none → countOpen σ.records = 0) ∧
  (∀ r ∈ σ.records, r.end_time = none →
    σ.current_status = some (r.activity_type, r.start_time)) ∧
  countOpen σ.records ≤ 1

theorem countOpen_append (a b : List Interval) :
    countOpen (a ++ b) = countOpen a + countOpen b := by
  simp [countOpen, List.filter_append]

theorem countOpen_eq_zero_iff (rs : List Interval) :
    countOpen rs = 0 ↔ ∀ r ∈ rs, r.end_time ≠ none := by
  simp [countOpen, List.length_eq_zero, List.filter_eq_nil_iff, Option.isNone_iff_eq_none]

theorem countOpen_close_open (now : Nat) (rs : List Interval) :
    countOpen (close_open now rs) = 0 := by
  rw [countOpen_eq_zero_iff]
  intro r hr
  obtain ⟨a, _, rfl⟩ := List.mem_map.1 hr
  cases ha : a.end_time <;> simp [ha]

theorem close_open_of_closed (now : Nat) :
    ∀ rs : List Interval, (∀ r ∈ rs, r.end_time ≠ none) → close_open now rs = rs := by
  intro rs
  induction rs with
  | nil => intro _; rfl
  | cons a rs ih =>
    intro h
    have ha := h a (List.mem_cons_self a rs)
    cases he : a.end_time with
    | none => exact absurd he ha
    | some e =>
      have ihr := ih fun r hr => h r (List.mem_cons_of_mem a hr)
      simp only [close_open, List.map_cons, he] at ihr ⊢
      rw [ihr]

theorem open_mem_map {f : Interval → Interval}
    (hg : ∀ a, (f a).end_time = none → f a = a) (rs : List Interval) (r : Interval)
    (hr : r ∈ rs.map f) (ho : r.end_time = none) : r ∈ rs := by
  obtain ⟨a, ha, rfl⟩ := List.mem_map.1 hr
  rw [hg a ho]
  exact ha

theorem countOpen_map_le {f : Interval → Interval}
    (hg : ∀ a, (f a).end_time = none → f a = a) (rs : List Interval) :
    countOpen (rs.map f) ≤ countOpen rs := by
  induction rs with
  | nil => exact Nat.le_refl _
  | cons a rs ih =>
    simp only [List.map_cons, countOpen, List.filter_cons] at ih ⊢
    by_cases hfa : (f a).end_time.isNone = true
    · have hfaa := hg a (Option.isNone_iff_eq_none.1 hfa)
      have hb : a.end_time.isNone = true := by rw [← hfaa]; exact hfa
      simp only [hfa, hb, if_pos, List.length_cons]
      exact Nat.succ_le_succ ih
    · simp only [hfa, if_neg, Bool.false_eq_true, if_false]
      by_cases hb : a.end_time.isNone = true
      · simp only [hb, if_pos, List.length_cons]
        exact Nat.le_succ_of_le ih
      · simp only [hb, Bool.false_eq_true, if_false]
        exact ih

theorem map_pointwise_id {f : Interval → Interval} :
    ∀ rs : List Interval, (∀ a ∈ rs, f a = a) → rs.map f = rs := by
  intro rs
  induction rs with
  | nil => intro _; rfl
  | cons a rs ih =>
    intro h
    simp only [List.map_cons, h a (List.mem_cons_self a rs),
      ih fun r hr => h r (List.mem_cons_of_mem a hr)]

theorem set_start_self (r : Interval) (e : Nat) (h : r.start_time = e) :
    { r with start_time := e } = r := by
  cases r
  subst h
  rfl

theorem inv_empty : Inv emptyDB := by
  refine ⟨?_, ?_, ?_, ?_⟩ <;> simp [emptyDB, countOpen]

theorem inv_log (σ : DBState) (L : String) (now : Nat) (h : Inv σ) (hL : L ≠ "") :
    Inv (log_activity L now σ).2 := by
  obtain ⟨h1, h2, h3, h4⟩ := h
  cases hc : σ.current_status with
  | none =>
    have hz : countOpen σ.records = 0 := h2 hc
    simp only [log_activity, hc]
    refine ⟨?_, ?_, ?_, ?_⟩
    · intro l s hs
      simp only [Option.some.injEq, Prod.mk.injEq] at hs
      rw [← hs.1]
      exact hL
    · intro hn; simp at hn
    · intro r hr hro
      rcases List.mem_append.1 hr with hl | hl
      · exact absurd hro ((countOpen_eq_zero_iff _).1 hz r hl)
      · simp only [List.mem_singleton] at hl
        subst hl
        rfl
    · rw [countOpen_append, hz]
      exact Nat.le_refl _
  | some p =>
    obtain ⟨c, cs⟩ := p
    by_cases hcl : c = L
    · simp only [log_activity, hc, if_pos hcl]
      exact ⟨h1, h2, h3, h4⟩
    · have hcne : c ≠ "" := h1 c cs hc
      simp only [log_activity, hc, if_neg hcl, if_neg hcne]
      refine ⟨?_, ?_, ?_, ?_⟩
      · intro l s hs
        simp only [Option.some.injEq, Prod.mk.injEq] at hs
        rw [← hs.1]
        exact hL
      · intro hn; simp at hn
      · intro r hr hro
        rcases List.mem_append.1 hr with hl | hl
        · exact absurd hro
            ((countOpen_eq_zero_iff _).1 (countOpen_close_open now σ.records) r hl)
        · simp only [List.mem_singleton] at hl
          subst hl
          rfl
      · rw [countOpen_append, countOpen_close_open]
        exact Nat.le_refl _

theorem inv_manual (σ : DBState) (L : String) (s now : Nat) (h : Inv σ) :
    Inv (manual_insert_activity L s now σ) := by
  obtain ⟨h1, h2, h3, h4⟩ := h
  cases ho : selectOriginal s σ.records with
  | none =>
    simp only [manual_insert_activity, ho]
    refine ⟨h1, ?_, ?_, ?_⟩
    · intro hn
      rw [countOpen_append, h2 hn]
      rfl
    · intro r hr hro
      rcases List.mem_append.1 hr with hl | hl
      · exact h3 r hl hro
      · simp only [List.mem_singleton] at hl
        subst hl
        simp at hro
    · rw [countOpen_append]
      have : countOpen [(⟨σ.nextId, L, s,
          some (match listMinNat ((σ.records.filter fun r =>
            decide (s < r.start_time)).map fun r => r.start_time) with
            | some m => m | none => now)⟩ : Interval)] = 0 := rfl
      omega
  | some orig =>
    have hg1 : ∀ a : Interval,
        ((if a.id = orig.id then { a with end_time := some s } else a) : Interval).end_time
          = none →
        (if a.id = orig.id then { a with end_time := some s } else a) = a := by
      intro a ha
      by_cases hid : a.id = orig.id
      · simp [hid] at ha
      · simp [hid]
    cases hoe : orig.end_time with
    | none =>
      simp only [manual_insert_activity, ho, hoe]
      refine ⟨h1, ?_, ?_, ?_⟩
      · intro hn
        rw [countOpen_append]
        have hle := countOpen_map_le hg1 σ.records
        rw [h2 hn] at hle
        have : countOpen [(⟨σ.nextId, L, s, some now⟩ : Interval)] = 0 := rfl
        omega
      · intro r hr hro
        rcases List.mem_append.1 hr with hl | hl
        · exact h3 r (open_mem_map hg1 σ.records r hl hro) hro
        · simp only [List.mem_singleton] at hl
          subst hl
          simp at hro
      · rw [countOpen_append]
        have hle := countOpen_map_le hg1 σ.records
        have : countOpen [(⟨σ.nextId, L, s, some now⟩ : Interval)] = 0 := rfl
        omega
    | some e =>
      have heta : ∀ r : Interval,
          (if r.start_time = e ∧ r.id ≠ σ.nextId then { r with start_time := e } else r) = r := by
        intro r
        by_cases hcond : r.start_time = e ∧ r.id ≠ σ.nextId
        · rw [if_pos hcond]
          exact set_start_self r e hcond.1
        · rw [if_neg hcond]
      simp only [manual_insert_activity, ho, hoe]
      rw [map_pointwise_id _ fun a _ => heta a]
      refine ⟨h1, ?_, ?_, ?_⟩
      · intro hn
        rw [countOpen_append]
        have hle := countOpen_map_le hg1 σ.records
        rw [h2 hn] at hle
        have : countOpen [(⟨σ.nextId, L, s, some e⟩ : Interval)] = 0 := rfl
        omega
      · intro r hr hro
        rcases List.mem_append.1 hr with hl | hl
        · exact h3 r (open_mem_map hg1 σ.records r hl hro) hro
        · simp only [List.mem_singleton] at hl
          subst hl
          simp at hro
      · rw [countOpen_append]
        have hle := countOpen_map_le hg1 σ.records
        have : countOpen [(⟨σ.nextId, L, s, some e⟩ : Interval)] = 0 := rfl
        omega

theorem reachable_inv {σ : DBState} (h : Reachable σ) : Inv σ := by
  induction h with
  | init => exact inv_empty
  | step_log σ L now _ hL ih => exact inv_log σ L now ih hL
  | step_manual σ L s now _ ih => exact inv_manual σ L s now ih

theorem close_open_append (now : Nat) (a b : List Interval) :
    close_open now (a ++ b) = close_open now a ++ close_open now b := by
  simp [close_open]

theorem chain_chained : ∀ (ops : List (String × Nat)) (i : Nat), chained (chain i ops) := by
  intro ops
  induction ops with
  | nil => intro i; trivial
  | cons p rest ih =>
    obtain ⟨l, t⟩ := p
    intro i
    cases rest with
    | nil => trivial
    | cons q rs =>
      obtain ⟨l2, t2⟩ := q
      cases rs with
      | nil => exact ⟨rfl, trivial⟩
      | cons q2 rs2 =>
        obtain ⟨l3, t3⟩ := q2
        exact ⟨rfl, ih (i + 1)⟩

/-- A run of presses with distinct consecutive non-empty labels, started
from a state holding some closed rows plus one open row mirrored by
current_status, appends the expected closed chain: each press is closed
at the timestamp of the next press and the last press stays open. -/
theorem run2_active (ops : List (String × Nat)) :
    ∀ (pre : List Interval) (l0 : String) (t0 n : Nat),
    (∀ r ∈ pre, r.end_time ≠ none) →
    labelsNonempty ops = true →
    consecDistinct ((l0, t0) :: ops) = true →
    l0 ≠ "" →
    run2 ops { records := pre ++ [⟨n, l0, t0, none⟩],
               current_status := some (l0, t0), nextId := n + 1 }
      = (ops.map fun _ => true,
         { records := pre ++ chain n ((l0, t0) :: ops),
           current_status := some (lastPair (l0, t0) ops),
           nextId := n + 1 + ops.length }) := by
  induction ops with
  | nil =>
    intro pre l0 t0 n hpre hne hcd hl0
    simp [run2, chain, lastPair]
  | cons p rest ih =>
    obtain ⟨l1, t1⟩ := p
    intro pre l0 t0 n hpre hne hcd hl0
    have hd1 : ¬(l0 = l1) := by
      intro hh
      rw [hh] at hcd
      simp [consecDistinct] at hcd
    have hd2 : consecDistinct ((l1, t1) :: rest) = true := by
      simp only [consecDistinct, Bool.and_eq_true] at hcd
      exact hcd.2
    have hl1ne : l1 ≠ "" := by
      intro hh
      simp [labelsNonempty, hh] at hne
    have hne2 : labelsNonempty rest = true := by
      simp only [labelsNonempty, Bool.and_eq_true] at hne
      exact hne.2
    have hclose : close_open t1 (pre ++ [(⟨n, l0, t0, none⟩ : Interval)])
        = pre ++ [⟨n, l0, t0, some t1⟩] := by
      rw [close_open_append, close_open_of_closed t1 pre hpre]
      rfl
    have hstep : log_activity l1 t1
        { records := pre ++ [⟨n, l0, t0, none⟩],
          current_status := some (l0, t0), nextId := n + 1 }
        = (true,
           { records := (pre ++ [⟨n, l0, t0, some t1⟩]) ++ [⟨n + 1, l1, t1, none⟩],
             current_status := some (l1, t1), nextId := n + 1 + 1 }) := by
      simp only [log_activity, if_neg hd1, if_neg hl0]
      rw [hclose]
    have ihr := ih (pre ++ [⟨n, l0, t0, some t1⟩]) l1 t1 (n + 1)
      (by
        intro r hr
        rcases List.mem_append.1 hr with hl | hl
        · exact hpre r hl
        · simp only [List.mem_singleton] at hl
          subst hl
          simp)
      hne2 hd2 hl1ne
    simp only [run2]
    rw [hstep]
    simp only
    rw [ihr]
    refine Prod.ext rfl ?_
    simp only [chain, lastPair, List.append_assoc, List.singleton_append, List.length_cons]
    have harith : n + 1 + 1 + rest.length = n + 1 + (rest.length + 1) := by omega
    rw [harith]

/-- C1: calling record(L) while L is already the current activity is a
no-op that returns unchanged (False), leaving the store — its Interval
rows and CurrentStatus — identical; after a successful record(L) from a
reachable state the store has exactly one open Interval, and a second
consecutive record(L) takes the no-op branch and leaves it unchanged. -/
theorem c1_record_same_label_idempotent (σ σ' τ : DBState) (L : String)
    (s now now2 : Nat) (hr : Reachable σ)
    (ht : log_activity L now σ = (true, σ'))
    (hτ : τ.current_status = some (L, s)) :
    log_activity L now2 σ' = (false, σ') ∧ countOpen σ'.records = 1 ∧
    log_activity L now2 τ = (false, τ) := by
  have hinv := reachable_inv hr
  have hτnoop : log_activity L now2 τ = (false, τ) := by
    simp [log_activity, hτ]
  cases hc : σ.current_status with
  | none =>
    have hz := hinv.2.1 hc
    simp only [log_activity, hc] at ht
    rw [Prod.mk.injEq] at ht
    obtain ⟨-, rfl⟩ := ht
    refine ⟨by simp [log_activity], ?_, hτnoop⟩
    rw [countOpen_append, hz]
    rfl
  | some p =>
    obtain ⟨c, cs⟩ := p
    by_cases hcl : c = L
    · simp only [log_activity, hc, if_pos hcl] at ht
      rw [Prod.mk.injEq] at ht
      exact absurd ht.1 (by simp)
    · have hcne : c ≠ "" := hinv.1 c cs hc
      simp only [log_activity, hc, if_neg hcl, if_neg hcne] at ht
      rw [Prod.mk.injEq] at ht
      obtain ⟨-, rfl⟩ := ht
      refine ⟨by simp [log_activity], ?_, hτnoop⟩
      rw [countOpen_append, countOpen_close_open]
      rfl

/-- Witness for C1 at a concrete input: the state reached by a single
successful record of Work. -/
theorem c1_record_same_label_idempotent_witness :
    log_activity "Work" 150 (DBState.mk [⟨1, "Work", 100, none⟩] (some ("Work", 100)) 2)
      = (false, DBState.mk [⟨1, "Work", 100, none⟩] (some ("Work", 100)) 2) ∧
    countOpen (DBState.mk [⟨1, "Work", 100, none⟩] (some ("Work", 100)) 2).records = 1 ∧
    log_activity "Work" 150 (DBState.mk [⟨1, "Work", 100, none⟩] (some ("Work", 100)) 2)
      = (false, DBState.mk [⟨1, "Work", 100, none⟩] (some ("Work", 100)) 2) :=
  c1_record_same_label_idempotent emptyDB _ _ "Work" 100 100 150 Reachable.init rfl rfl

/-- C2: starting from the empty store, a sequence of record calls with
non-empty, distinct consecutive labels makes every call return changed
(True) and produces exactly the chain of Intervals in which each closed
Interval ends at the timestamp at which the next one starts (end i =
start (i+1)), the last one open. -/
theorem c2_distinct_labels_partition (ops : List (String × Nat))
    (hne : labelsNonempty ops = true) (hcd : consecDistinct ops = true) :
    (run2 ops emptyDB).1 = (ops.map fun _ => true) ∧
    (run2 ops emptyDB).2.records = chain 1 ops ∧
    chained (run2 ops emptyDB).2.records := by
  cases ops with
  | nil => exact ⟨rfl, rfl, trivial⟩
  | cons p rest =>
    obtain ⟨l, t⟩ := p
    have hl : l ≠ "" := by
      intro hh
      simp [labelsNonempty, hh] at hne
    have hne2 : labelsNonempty rest = true := by
      simp only [labelsNonempty, Bool.and_eq_true] at hne
      exact hne.2
    have hfirst : log_activity l t emptyDB
        = (true, { records := [] ++ [⟨1, l, t, none⟩],
                   current_status := some (l, t), nextId := 1 + 1 }) := rfl
    have ihr := run2_active rest [] l t 1 (by intro r hr; simp at hr) hne2 hcd hl
    simp only [run2]
    rw [hfirst]
    simp only
    rw [ihr]
    refine ⟨rfl, by simp, ?_⟩
    simp only [List.nil_append]
    exact chain_chained ((l, t) :: rest) 1

/-- Witness for C2 at a concrete two-press run. -/
theorem c2_distinct_labels_partition_witness :
    (run2 [("Work", 100), ("Sleep", 200)] emptyDB).1
      = ([("Work", 100), ("Sleep", 200)].map fun _ => true) ∧
    (run2 [("Work", 100), ("Sleep", 200)] emptyDB).2.records
      = chain 1 [("Work", 100), ("Sleep", 200)] ∧
    chained (run2 [("Work", 100), ("Sleep", 200)] emptyDB).2.records :=
  c2_distinct_labels_partition [("Work", 100), ("Sleep", 200)] rfl rfl

/-- C6: a manual insert whose start lies in the future (start > now) is
rejected by the dialog validation with the future-timestamp error before
the database operation runs: the returned store is the input store, so
the Interval rows and CurrentStatus are identical before and after. -/
theorem c6_future_manual_insert_rejected (L : String) (s now : Nat) (σ : DBState)
    (hL : L ≠ "") (hf : now < s) :
    validate_and_submit L s now σ = (some InputError.invalidInput, σ) := by
  simp only [validate_and_submit, if_neg hL, if_pos hf]

/-- Witness for C6 at a concrete future-dated input. -/
theorem c6_future_manual_insert_rejected_witness :
    validate_and_submit "Meeting" 200 100 emptyDB
      = (some InputError.invalidInput, emptyDB) :=
  c6_future_manual_insert_rejected "Meeting" 200 100 emptyDB (by decide) (by decide)

/-- C9 as stated is false: a call of log_activity that returns True does
not always close every open row.  From the empty store, record of the
empty label followed by record of Work returns True on the second call
and leaves two open Intervals, because the closing UPDATE only runs when
the stored current activity is truthy. -/
theorem c9_counterexample :
    (log_activity "Work" 200 (log_activity "" 100 emptyDB).2).1 = true ∧
    countOpen (log_activity "Work" 200 (log_activity "" 100 emptyDB).2).2.records = 2 := by
  decide

/-- C9 amended: whenever the current_status row exists with a non-empty
label, a call of log_activity that returns True closes every open row
before appending the new open row, so exactly one Interval is open
afterwards — the newly appended one — even if the prior state held more
than one open Interval. -/
theorem c9_true_call_closes_all_opens (σ σ' : DBState) (c L : String) (cs now : Nat)
    (hc : σ.current_status = some (c, cs)) (hcne : c ≠ "")
    (ht : log_activity L now σ = (true, σ')) :
    countOpen σ'.records = 1 ∧
    σ'.records.getLast? = some ⟨σ.nextId, L, now, none⟩ := by
  by_cases hcl : c = L
  · simp only [log_activity, hc, if_pos hcl] at ht
    rw [Prod.mk.injEq] at ht
    exact absurd ht.1 (by simp)
  · simp only [log_activity, hc, if_neg hcl, if_neg hcne] at ht
    rw [Prod.mk.injEq] at ht
    obtain ⟨-, rfl⟩ := ht
    constructor
    · rw [countOpen_append, countOpen_close_open]
      rfl
    · exact List.getLast?_concat _

/-- Witness for the amended C9 on a prior state holding two open rows. -/
theorem c9_true_call_closes_all_opens_witness :
    countOpen (DBState.mk
      [⟨1, "A", 10, some 30⟩, ⟨2, "B", 20, some 30⟩, ⟨3, "C", 30, none⟩]
      (some ("C", 30)) 4).records = 1 ∧
    (DBState.mk
      [⟨1, "A", 10, some 30⟩, ⟨2, "B", 20, some 30⟩, ⟨3, "C", 30, none⟩]
      (some ("C", 30)) 4).records.getLast? = some ⟨3, "C", 30, none⟩ :=
  c9_true_call_closes_all_opens
    (DBState.mk [⟨1, "A", 10, none⟩, ⟨2, "B", 20, none⟩] (some ("B", 20)) 3)
    _ "B" "C" 20 30 rfl (by decide) rfl

/-- C10: manual_insert_activity never reads or writes the current_status
row: for every input the current_status record is identical before and
after the call. -/
theorem c10_manual_insert_frames_current_status (L : String) (s now : Nat) (σ : DBState) :
    (manual_insert_activity L s now σ).current_status = σ.current_status := by
  cases ho : selectOriginal s σ.records <;> simp [manual_insert_activity, ho]

/-- C3 as stated is false: after record of Work followed by a manual
insert of Meeting splitting the open interval, a reachable state has a
non-empty CurrentStatus but zero open Intervals, so CurrentStatus does
not correspond to exactly one open Interval. -/
theorem c3_counterexample :
    Reachable (manual_insert_activity "Meeting" 150 300
      (log_activity "Work" 100 emptyDB).2) ∧
    (manual_insert_activity "Meeting" 150 300
      (log_activity "Work" 100 emptyDB).2).current_status = some ("Work", 100) ∧
    countOpen (manual_insert_activity "Meeting" 150 300
      (log_activity "Work" 100 emptyDB).2).records = 0 :=
  ⟨Reachable.step_manual _ "Meeting" 150 300
      (Reachable.step_log emptyDB "Work" 100 Reachable.init (by decide)),
   by decide, by decide⟩

/-- C3 amended: in every state reachable by record (non-empty labels) and
manual insert operations from the empty store, at most one Interval is
open, and every open Interval carries exactly the label and start stored
in CurrentStatus; a non-empty CurrentStatus, however, may be left with no
matching open Interval after a manual insert splits the open one. -/
theorem c3_at_most_one_open_mirrors_status (σ : DBState) (r : Interval)
    (hr : Reachable σ) (hmem : r ∈ σ.records) (hopen : r.end_time = none) :
    countOpen σ.records ≤ 1 ∧
    σ.current_status = some (r.activity_type, r.start_time) :=
  ⟨(reachable_inv hr).2.2.2, (reachable_inv hr).2.2.1 r hmem hopen⟩

/-- Witness for the amended C3 on the state after one record of Work. -/
theorem c3_at_most_one_open_mirrors_status_witness :
    countOpen (log_activity "Work" 100 emptyDB).2.records ≤ 1 ∧
    (log_activity "Work" 100 emptyDB).2.current_status = some ("Work", 100) :=
  c3_at_most_one_open_mirrors_status _ ⟨1, "Work", 100, none⟩
    (Reachable.step_log emptyDB "Work" 100 Reachable.init (by decide))
    (by decide) rfl

/-- C4 as stated is false: splitting the single open Work interval at
10:00 closes the new Meeting row at the now sampled inside the call
instead of leaving it open; no open Interval remains. -/
theorem c4_counterexample :
    (manual_insert_activity "Meeting" (mkTs 2024 1 1 10 0 0) (mkTs 2024 1 1 11 0 0)
      (DBState.mk [⟨1, "Work", mkTs 2024 1 1 9 0 0, none⟩]
        (some ("Work", mkTs 2024 1 1 9 0 0)) 2)).records
      = [⟨1, "Work", mkTs 2024 1 1 9 0 0, some (mkTs 2024 1 1 10 0 0)⟩,
         ⟨2, "Meeting", mkTs 2024 1 1 10 0 0, some (mkTs 2024 1 1 11 0 0)⟩] ∧
    countOpen (manual_insert_activity "Meeting" (mkTs 2024 1 1 10 0 0)
      (mkTs 2024 1 1 11 0 0)
      (DBState.mk [⟨1, "Work", mkTs 2024 1 1 9 0 0, none⟩]
        (some ("Work", mkTs 2024 1 1 9 0 0)) 2)).records = 0 := by
  constructor <;> decide

/-- C4 amended: from a store holding exactly one open Work interval
started at 09:00, a manual insert of Meeting at 10:00 leaves exactly two
Intervals, Work closed over 09:00 to 10:00 and Meeting from 10:00 closed
at the now sampled in the call (not open), so the covered span from
09:00 up to that now is unchanged at the moment of the call. -/
theorem c4_manual_split_closes_at_now (now : Nat) :
    manual_insert_activity "Meeting" (mkTs 2024 1 1 10 0 0) now
      (DBState.mk [⟨1, "Work", mkTs 2024 1 1 9 0 0, none⟩]
        (some ("Work", mkTs 2024 1 1 9 0 0)) 2)
      = DBState.mk
          [⟨1, "Work", mkTs 2024 1 1 9 0 0, some (mkTs 2024 1 1 10 0 0)⟩,
           ⟨2, "Meeting", mkTs 2024 1 1 10 0 0, some now⟩]
          (some ("Work", mkTs 2024 1 1 9 0 0)) 3 := by
  rfl

/-- C5 as stated is false: queried for 2024-01-01, the Sleep interval
from 23:00 to 02:00 of the next day is returned with duration 10800
seconds (the end is not clipped to the day boundary), not 3600. -/
theorem c5_counterexample :
    get_date_records (daysFromCivil 2024 1 1) (mkTs 2024 1 2 12 0 0)
      (DBState.mk [⟨1, "Sleep", mkTs 2024 1 1 23 0 0, some (mkTs 2024 1 2 2 0 0)⟩]
        none 2)
      = [("Sleep", mkTs 2024 1 1 23 0 0, mkTs 2024 1 2 2 0 0, 10800)] ∧
    get_date_records (daysFromCivil 2024 1 1) (mkTs 2024 1 2 12 0 0)
      (DBState.mk [⟨1, "Sleep", mkTs 2024 1 1 23 0 0, some (mkTs 2024 1 2 2 0 0)⟩]
        none 2)
      ≠ [("Sleep", mkTs 2024 1 1 23 0 0, mkTs 2024 1 2 2 0 0, 3600)] := by
  constructor <;> decide

/-- C5 amended: day_records clips only the start.  For 2024-01-01 the
Sleep interval is returned with its start unclipped at 23:00 and
duration 10800 seconds, the full interval length; for 2024-01-02 it is
returned with start clipped to midnight and duration 7200 seconds; the
two reported durations therefore sum to 18000, not the original 10800. -/
theorem c5_day_query_clips_start_only :
    get_date_records (daysFromCivil 2024 1 1) (mkTs 2024 1 2 12 0 0)
      (DBState.mk [⟨1, "Sleep", mkTs 2024 1 1 23 0 0, some (mkTs 2024 1 2 2 0 0)⟩]
        none 2)
      = [("Sleep", mkTs 2024 1 1 23 0 0, mkTs 2024 1 2 2 0 0, 10800)] ∧
    get_date_records (daysFromCivil 2024 1 2) (mkTs 2024 1 2 12 0 0)
      (DBState.mk [⟨1, "Sleep", mkTs 2024 1 1 23 0 0, some (mkTs 2024 1 2 2 0 0)⟩]
        none 2)
      = [("Sleep", mkTs 2024 1 2 0 0 0, mkTs 2024 1 2 2 0 0, 7200)] ∧
    10800 + 7200 = 18000 := by
  refine ⟨by decide, by decide, rfl⟩

/-- C7 evidence: a Work interval lying entirely inside January 2024 but
starting after 00:00:00 on the last day of the month is not returned by
get_month_records, because the query cutoff is the last day at midnight
rather than the end of the month. -/
theorem c7_last_day_interval_excluded :
    get_month_records 2024 1 (mkTs 2024 2 1 0 0 0)
      (DBState.mk [⟨1, "Work", mkTs 2024 1 31 10 0 0, some (mkTs 2024 1 31 12 0 0)⟩]
        none 2) = [] ∧
    daysFromCivil 2024 1 1 * 86400 ≤ mkTs 2024 1 31 10 0 0 ∧
    mkTs 2024 1 31 10 0 0 < daysFromCivil 2024 2 1 * 86400 := by
  refine ⟨by decide, by decide, by decide⟩

/-- C8 as stated is false: an interval from 23:00 of day 15 to 02:00 of
day 16 contributes 3599 seconds to day 15 (the day is capped at
23:59:59), not a full hour, so the two per-day contributions sum to one
second less than the full duration. -/
theorem c8_counterexample :
    record_day_contribs 1 (mkTs 2024 1 15 23 0 0) (mkTs 2024 1 16 2 0 0)
      = [(15, 3599), (16, 7200)] ∧
    (3599 : Int) + 7200
      ≠ (mkTs 2024 1 16 2 0 0 : Int) - (mkTs 2024 1 15 23 0 0 : Int) := by
  constructor <;> decide

/-- C8 amended: the midnight-spanning interval contributes 3599 seconds
to day 15 and 7200 seconds to day 16 — one second short of its full
duration, since each day is capped at 23:59:59 — and any day listed in
covered_days is excluded from the valid_days set over which the monthly
average is computed. -/
theorem c8_midnight_split_and_covered_excluded (year month : Nat)
    (recs : List (String × Nat × Nat)) (covered : List Nat) (d : Nat)
    (hd : d ∈ covered) :
    record_day_contribs 1 (mkTs 2024 1 15 23 0 0) (mkTs 2024 1 16 2 0 0)
      = [(15, 3599), (16, 7200)] ∧
    (3599 : Int) + 7200
      = ((mkTs 2024 1 16 2 0 0 : Int) - (mkTs 2024 1 15 23 0 0 : Int)) - 1 ∧
    d ∉ valid_days year month recs covered := by
  refine ⟨by decide, by decide, ?_⟩
  intro hmem
  have h2 := (List.mem_filter.1 hmem).2
  simp only [Bool.and_eq_true, decide_eq_true_eq] at h2
  exact h2.2 hd

/-- Witness for the amended C8 with day 15 marked covered. -/
theorem c8_midnight_split_and_covered_excluded_witness :
    record_day_contribs 1 (mkTs 2024 1 15 23 0 0) (mkTs 2024 1 16 2 0 0)
      = [(15, 3599), (16, 7200)] ∧
    (3599 : Int) + 7200
      = ((mkTs 2024 1 16 2 0 0 : Int) - (mkTs 2024 1 15 23 0 0 : Int)) - 1 ∧
    15 ∉ valid_days 2024 1 [] [15] :=
  c8_midnight_split_and_covered_excluded 2024 1 [] [15] 15 (by decide)

end QuarterTime
